import Mathlib

set_option autoImplicit false

/-!
Verification of the event-translation and import pipeline of
`ics_to_google_calendar.py` (repository `delize/microsoft-to-google`).

The Python module is shallowly embedded below: each definition mirrors one
function or code block of the source (line references are given in the doc
comments).  Python truthiness on string-valued ICS properties (`if x:`) is
modelled by `truthyOpt`, which treats an absent property and an empty string
the same way the source does.
-/

/-- Python truthiness for an optional string property: `if x:` is false both
for a missing property and for an empty string value. -/
def truthyOpt : Option String → Option String
  | none => none
  | some s => if s = "" then none else some s

/-- Check that the needle list is a prefix of the hay list
(characters compared one by one). -/
def startsWithList : List Char → List Char → Bool
  | [], _ => true
  | _ :: _, [] => false
  | a :: as, b :: bs => a = b && startsWithList as bs

/-- Check that the needle occurs contiguously inside the hay list; this models
Python's substring operator `needle in hay`. -/
def containsList (hay needle : List Char) : Bool :=
  match hay with
  | [] => needle.isEmpty
  | _ :: t => startsWithList needle hay || containsList t needle

/-- Python's `needle in hay` on strings. -/
def strContains (hay needle : String) : Bool :=
  containsList hay.toList needle.toList

/-- Python `str.lower()`. -/
def strLower (s : String) : String := String.mk (s.toList.map Char.toLower)

/-- Python `str.upper()`. -/
def strUpper (s : String) : String := String.mk (s.toList.map Char.toUpper)

/-- Python `str.strip()`: drop leading and trailing whitespace. -/
def strTrim (s : String) : String :=
  String.mk (((s.toList.dropWhile Char.isWhitespace).reverse.dropWhile Char.isWhitespace).reverse)

/-- One fuel-indexed pass of Python `str.replace` (left to right,
non-overlapping); the fuel is an upper bound on the number of characters
consumed, so `fuel = l.length` computes the full replacement for a non-empty
pattern. -/
def replaceFuel (pat sub : List Char) : Nat → List Char → List Char
  | _, [] => []
  | 0, l => l
  | fuel + 1, a :: rest =>
    if startsWithList pat (a :: rest) = true then
      sub ++ replaceFuel pat sub fuel (List.drop (pat.length - 1) rest)
    else a :: replaceFuel pat sub fuel rest

/-- Python `s.replace(pat, sub)` for a non-empty pattern. -/
def strReplace (s pat sub : String) : String :=
  String.mk (replaceFuel pat.toList sub.toList s.toList.length s.toList)

/-- Python `s.startswith(pre)`. -/
def strStartsWith (s pre : String) : Bool := startsWithList pre.toList s.toList

/-- Python `s.endswith(suf)`. -/
def strEndsWith (s suf : String) : Bool :=
  startsWithList suf.toList.reverse s.toList.reverse

/-- Python `c in s` for a single character. -/
def strHasChar (s : String) (c : Char) : Bool := s.toList.contains c

/-- The `TIMEZONE_MAPPINGS` table of the source (lines 86-122), in definition
order: Windows/Outlook display names mapped to IANA identifiers. -/
def TIMEZONE_MAPPINGS : List (String × String) := [
  ("Eastern Standard Time", "America/New_York"),
  ("Eastern Daylight Time", "America/New_York"),
  ("Central Standard Time", "America/Chicago"),
  ("Central Daylight Time", "America/Chicago"),
  ("Mountain Standard Time", "America/Denver"),
  ("Mountain Daylight Time", "America/Denver"),
  ("US Mountain Standard Time", "America/Phoenix"),
  ("Pacific Standard Time", "America/Los_Angeles"),
  ("Pacific Daylight Time", "America/Los_Angeles"),
  ("Alaska Standard Time", "America/Anchorage"),
  ("Hawaiian Standard Time", "Pacific/Honolulu"),
  ("GMT Standard Time", "Europe/London"),
  ("W. Europe Standard Time", "Europe/Berlin"),
  ("Romance Standard Time", "Europe/Paris"),
  ("Central European Standard Time", "Europe/Budapest"),
  ("E. Europe Standard Time", "Europe/Bucharest"),
  ("FLE Standard Time", "Europe/Kiev"),
  ("Russian Standard Time", "Europe/Moscow"),
  ("Tokyo Standard Time", "Asia/Tokyo"),
  ("China Standard Time", "Asia/Shanghai"),
  ("Singapore Standard Time", "Asia/Singapore"),
  ("India Standard Time", "Asia/Kolkata"),
  ("Arabian Standard Time", "Asia/Dubai"),
  ("Israel Standard Time", "Asia/Jerusalem"),
  ("AUS Eastern Standard Time", "Australia/Sydney"),
  ("E. Australia Standard Time", "Australia/Brisbane"),
  ("AUS Central Standard Time", "Australia/Darwin"),
  ("Cen. Australia Standard Time", "Australia/Adelaide"),
  ("W. Australia Standard Time", "Australia/Perth"),
  ("New Zealand Standard Time", "Pacific/Auckland"),
  ("Venezuela Standard Time", "America/Caracas"),
  ("SA Pacific Standard Time", "America/Bogota"),
  ("Atlantic Standard Time", "America/Halifax"),
  ("UTC", "UTC"),
  ("Coordinated Universal Time", "UTC")]

/-- Exact dictionary lookup `TIMEZONE_MAPPINGS[tz_str]` (source line 139-140). -/
def lookupMapping (s : String) : Option String :=
  (TIMEZONE_MAPPINGS.find? (fun p => p.1 == s)).map Prod.snd

/-- The partial-match scan of the source (lines 143-145): first table entry,
in definition order, whose key contains the input or is contained in it,
case-insensitively. -/
def substringMapping (s : String) : Option String :=
  (TIMEZONE_MAPPINGS.find? (fun p =>
    strContains (strLower s) (strLower p.1) || strContains (strLower p.1) (strLower s))).map Prod.snd

/-- `normalize_timezone` (source lines 125-148).  The pytz validity check is
injected as `isValid` (the source consults the external pytz database). -/
def normalize_timezone (isValid : String → Bool) (tz_str : String) : String :=
  if tz_str = "" then "UTC"
  else if isValid tz_str then tz_str
  else
    match lookupMapping tz_str with
    | some v => v
    | none =>
      match substringMapping tz_str with
      | some v => v
      | none => "UTC"

/-- A small stub timezone database used for the concrete test values of the
spec: it recognises exactly three IANA identifiers and no Windows name. -/
def stubValid : String → Bool := fun s =>
  s = "UTC" || s = "America/Chicago" || s = "America/New_York"

/-- The value of a `dtstart`/`dtend` ICS property: either a pure `date` (the
all-day case, `isinstance(dt, date) and not isinstance(dt, datetime)` in the
source) or a `datetime`.  Dates count days, datetimes count seconds, both from
the same epoch; a datetime optionally carries the name of its `tzinfo`. -/
inductive TimeVal where
  | dateOnly (day : Int)
  | dateTime (sec : Int) (tzinfoName : Option String)
deriving DecidableEq

/-- A Python `timedelta`, normalised as the library keeps it: a number of days
plus a number of seconds. -/
structure TimeDelta where
  days : Int
  seconds : Int
deriving DecidableEq

/-- Python `date`/`datetime` + `timedelta`: adding to a pure date uses only the
day component of the delta (Python ignores `timedelta.seconds` there), adding
to a datetime uses the full delta. -/
def addDelta (t : TimeVal) (d : TimeDelta) : TimeVal :=
  match t with
  | .dateOnly day => .dateOnly (day + d.days)
  | .dateTime sec tzi => .dateTime (sec + d.days * 86400 + d.seconds) tzi

/-- Python `.date()` on either kind of value: the calendar day containing the
instant (floor division for datetimes). -/
def dateOf (t : TimeVal) : Int :=
  match t with
  | .dateOnly day => day
  | .dateTime sec _ => Int.fdiv sec 86400

/-- A dated ICS property as handed over by the parser: its value plus the
optional `TZID` parameter. -/
structure DtProp where
  value : TimeVal
  tzid : Option String
deriving DecidableEq

/-- A `VALARM` trigger: either a relative offset (a `timedelta`, in seconds)
or an absolute time (which the source ignores). -/
inductive TriggerVal where
  | rel (seconds : Int)
  | absTime (t : Int)
deriving DecidableEq

/-- A `VALARM` sub-component: its `action` property and its trigger. -/
structure VAlarm where
  action : Option String
  trigger : Option TriggerVal
deriving DecidableEq

/-- An `ATTENDEE` property: the cal-address text (`str(attendee)`) and the
parameters the source reads. -/
structure VAttendee where
  calAddress : String
  cn : Option String
  partstat : Option String
  role : Option String
  cutype : Option String
deriving DecidableEq

/-- One parsed VEVENT, the legacy event record: the property bag read by
`_convert_vevent_to_google_event`.  `raw` is the record's full raw
serialisation, `str(vevent.to_ical())`, which the source hashes when no UID is
present; the UID property is one of the lines of that serialisation. -/
structure VEventRec where
  uid : Option String
  raw : String
  summary : Option String
  description : Option String
  location : Option String
  dtstart : Option DtProp
  dtend : Option DtProp
  duration : Option TimeDelta
  busystatus : Option String
  transp : Option String
  status : Option String
  classification : Option String
  organizerAddr : Option String
  organizerCN : Option String
  attendees : List VAttendee
  alarms : List VAlarm
  sequence : Option Int
deriving DecidableEq

/-- A start/end object of the produced Google event: `{'date': ...}` for
all-day, `{'dateTime': ..., 'timeZone': ...}` for timed. -/
inductive GTime where
  | gdate (day : Int)
  | gdt (value : TimeVal) (timeZone : String)
deriving DecidableEq

/-- An organizer entry of the produced event. -/
structure GOrganizer where
  email : String
  displayName : Option String
deriving DecidableEq

/-- An attendee entry of the produced event. -/
structure GAttendee where
  email : String
  displayName : Option String
  responseStatus : String
  optional : Bool
  resource : Bool
deriving DecidableEq

/-- One reminder override of the produced event. -/
structure GReminder where
  method : String
  minutes : Nat
deriving DecidableEq

/-- The Google Calendar event dictionary built by the translator.  Optional
dictionary keys are `Option`/lists (an empty attendee or reminder list stands
for the key being absent); `outlookUID` models
`extendedProperties.private.outlookUID`. -/
structure GEvent where
  iCalUID : String
  summary : String
  description : Option String
  location : Option String
  start : GTime
  endTime : GTime
  status : Option String
  transparency : Option String
  visibility : Option String
  organizer : Option GOrganizer
  attendees : List GAttendee
  reminders : List GReminder
  sequence : Option Int
  outlookUID : Option String
deriving DecidableEq

/-- One lowercase hexadecimal digit. -/
def hexDigitChar (n : Nat) : Char :=
  if n < 10 then Char.ofNat (48 + n) else Char.ofNat (87 + n)

/-- Render the low `k` hex digits of a natural number, most significant
first. -/
def hexRender : Nat → Nat → List Char
  | 0, _ => []
  | k + 1, n => hexRender k (n / 16) ++ [hexDigitChar (n % 16)]

/-- Deterministic stand-in for `hashlib.md5(...).hexdigest()` (source line
364): an executable pure digest of the input string rendered as 32 hex
characters.  The import pipeline only relies on the digest being a fixed
function of its input, never on concrete MD5 bit patterns. -/
def md5hexModel (s : String) : String :=
  String.mk (hexRender 32 (s.toList.foldl (fun a c => (a * 131 + c.toNat) % (2 ^ 128)) 7))

/-- The "smart default title" block of the source (lines 371-403), reached
when the summary is blank: meeting-platform keywords in the lowered
description/location text, then the busy-status extension property, then
transparency, then "Busy". -/
def defaultTitle (description location busystatus transp : Option String) : String :=
  if strContains (strLower (description.getD "")) "zoom"
      || strContains (strLower (location.getD "")) "zoom" then "Zoom Meeting"
  else if strContains (strLower (description.getD "")) "teams"
      || strContains (strLower (location.getD "")) "teams"
      || strContains (strLower (description.getD "")) "microsoft teams" then "Teams Meeting"
  else if strContains (strLower (description.getD "")) "webex"
      || strContains (strLower (location.getD "")) "webex" then "Webex Meeting"
  else if strContains (strLower (description.getD "")) "meet.google"
      || strContains (strLower (location.getD "")) "meet.google" then "Google Meet"
  else
    match truthyOpt busystatus with
    | some b =>
      if strUpper b = "FREE" then "Free"
      else if strUpper b = "TENTATIVE" then "Tentative"
      else if strUpper b = "OOF" then "Out of Office"
      else "Busy"
    | none =>
      match truthyOpt transp with
      | some t => if strUpper t = "TRANSPARENT" then "Free" else "Busy"
      | none => "Busy"

/-- Title resolution of the source (lines 366-403): the explicit summary when
non-blank after trimming, otherwise `defaultTitle`. -/
def resolveSummary (summary description location busystatus transp : Option String) : String :=
  match summary with
  | some s => if strTrim s ≠ "" then s else defaultTitle description location busystatus transp
  | none => defaultTitle description location busystatus transp

/-- Modelled from the spec: keyword/busy-status/transparency fallback of
section 4.2, steps 2-5. -/
def specDefaultTitle (description location busystatus transp : Option String) : String :=
  if strContains (strLower (description.getD "")) "zoom"
      || strContains (strLower (location.getD "")) "zoom" then "Zoom Meeting"
  else if (strContains (strLower (description.getD "")) "teams"
        || strContains (strLower (location.getD "")) "teams")
      || (strContains (strLower (description.getD "")) "microsoft teams"
        || strContains (strLower (location.getD "")) "microsoft teams") then "Teams Meeting"
  else if strContains (strLower (description.getD "")) "webex"
      || strContains (strLower (location.getD "")) "webex" then "Webex Meeting"
  else if strContains (strLower (description.getD "")) "meet.google"
      || strContains (strLower (location.getD "")) "meet.google" then "Google Meet"
  else
    match truthyOpt busystatus with
    | some b =>
      if strUpper b = "FREE" then "Free"
      else if strUpper b = "TENTATIVE" then "Tentative"
      else if strUpper b = "OOF" then "Out of Office"
      else "Busy"
    | none =>
      match truthyOpt transp with
      | some t => if strUpper t = "TRANSPARENT" then "Free" else "Busy"
      | none => "Busy"

/-- Modelled from the spec's wording of title resolution (section 4.2): strict
priority, first match wins; the keyword step checks, in order, "zoom", then
"teams" or "microsoft teams", then "webex", then "meet.google", each
case-insensitively in the description or location text.  Used only as the
comparison point for the refinement theorem of C5. -/
def specTitlePriority (summary description location busystatus transp : Option String) : String :=
  match summary with
  | some s => if strTrim s ≠ "" then s else specDefaultTitle description location busystatus transp
  | none => specDefaultTitle description location busystatus transp

/-- End-time resolution of the source (lines 424-437): the explicit `dtend`
value if present, else start plus the explicit `duration`, else start plus a
default of one day (all-day start) or one hour (timed start). -/
def resolveEndDt (start_dt : TimeVal) (dtendVal : Option TimeVal)
    (duration : Option TimeDelta) : TimeVal :=
  match dtendVal with
  | some e => e
  | none =>
    match duration with
    | some d => addDelta start_dt d
    | none =>
      match start_dt with
      | .dateOnly _ => addDelta start_dt { days := 1, seconds := 0 }
      | .dateTime _ _ => addDelta start_dt { days := 0, seconds := 3600 }

/-- `_get_timezone` (source lines 652-665): the property's `TZID` parameter if
truthy, else the datetime's own `tzinfo` name when present and different from
"UTC", else the calendar default; named timezones are normalised. -/
def getTimezone (isValid : String → Bool) (p : DtProp) (default_tz : String) : String :=
  match truthyOpt p.tzid with
  | some tzid => normalize_timezone isValid tzid
  | none =>
    match p.value with
    | .dateTime _ (some tn) =>
      if tn ≠ "" && tn ≠ "UTC" then normalize_timezone isValid tn else default_tz
    | _ => default_tz

/-- Start rendering of the source (lines 440-452): a `{'date': ...}` object
for an all-day start, a `{'dateTime': ..., 'timeZone': ...}` object for a
timed start. -/
def renderStart (startVal : TimeVal) (startTz : String) : GTime :=
  match startVal with
  | .dateOnly d => GTime.gdate d
  | .dateTime _ _ => GTime.gdt startVal startTz

/-- End rendering of the source (lines 440-456): when the start is all-day the
end is coerced to a date (`end_dt.date()` when it is a datetime); when the
start is timed the end is emitted as a dateTime with its timezone. -/
def renderEnd (startVal endVal : TimeVal) (endTz : String) : GTime :=
  match startVal with
  | .dateOnly _ =>
    match endVal with
    | .dateOnly e => GTime.gdate e
    | .dateTime _ _ => GTime.gdate (dateOf endVal)
  | .dateTime _ _ => GTime.gdt endVal endTz

/-- Attendee conversion of the source (lines 539-584): strip `mailto:`
prefixes, skip empty addresses, addresses without "@", addresses starting with
"invalid:" and Google resource-calendar addresses; map `PARTSTAT`, `ROLE` and
`CUTYPE` parameters. -/
def convAttendee (attendee : VAttendee) : Option GAttendee :=
  let email := strReplace (strReplace attendee.calAddress "mailto:" "") "MAILTO:" ""
  if email = "" then none
  else if !(strHasChar email '@') then none
  else if strStartsWith email "invalid:" then none
  else if strEndsWith email "@resource.calendar.google.com" then none
  else
    some {
      email := email
      displayName := truthyOpt attendee.cn
      responseStatus :=
        if strUpper (attendee.partstat.getD "") = "ACCEPTED" then "accepted"
        else if strUpper (attendee.partstat.getD "") = "DECLINED" then "declined"
        else if strUpper (attendee.partstat.getD "") = "TENTATIVE" then "tentative"
        else "needsAction"
      optional := strUpper (attendee.role.getD "") = "OPT-PARTICIPANT"
      resource := strUpper (attendee.cutype.getD "") = "RESOURCE"
        || strUpper (attendee.cutype.getD "") = "ROOM"
    }

/-- Organizer validation of the source (lines 521-529): accepted only when the
`mailto:`-stripped address contains "@" and does not start with "invalid:". -/
def convOrganizer (addr cnParam : Option String) : Option GOrganizer :=
  match truthyOpt addr with
  | none => none
  | some a =>
    let org_email := strReplace (strReplace a "mailto:" "") "MAILTO:" ""
    if org_email ≠ "" && strHasChar org_email '@' && !strStartsWith org_email "invalid:" then
      some { email := org_email, displayName := truthyOpt cnParam }
    else none

/-- One alarm's reminder of the source (lines 598-618): only relative triggers
count; minutes is the absolute truncated minute offset capped at 40320;
method is "email" exactly when the action property equals "EMAIL"
case-insensitively, else "popup". -/
def mkReminder (alarm : VAlarm) : Option GReminder :=
  match alarm.trigger with
  | some (.rel seconds) =>
    some {
      method :=
        match truthyOpt alarm.action with
        | some a => if strUpper a = "EMAIL" then "email" else "popup"
        | none => "popup"
      minutes :=
        if (Int.tdiv seconds 60).natAbs > 40320 then 40320 else (Int.tdiv seconds 60).natAbs
    }
  | _ => none

/-- Python set membership `x in seen`, modelled on a list of the set's
elements. -/
def memD {α : Type} [DecidableEq α] (l : List α) (x : α) : Bool := decide (x ∈ l)

/-- First-seen deduplication by (method, minutes) (source lines 624-630). -/
def dedupReminders : List GReminder → List (String × Nat) → List GReminder
  | [], _ => []
  | r :: rest, seen =>
    if memD seen (r.method, r.minutes) then dedupReminders rest seen
    else r :: dedupReminders rest ((r.method, r.minutes) :: seen)

/-- Reminder construction of the source (lines 594-635): collect relative
alarms, deduplicate by (method, minutes) preserving first-seen order, keep at
most five.  An empty result stands for the `reminders` key being absent. -/
def buildReminders (alarms : List VAlarm) : List GReminder :=
  (dedupReminders (alarms.filterMap mkReminder) []).take 5

/-- The Google event dictionary built by
`_convert_vevent_to_google_event` (source lines 353-650) once the start time
is known to be present. -/
def mkGoogleEvent (isValid : String → Bool) (vevent : VEventRec) (calendar_tz : String)
    (include_attendees : Bool) (dtstart : DtProp) : GEvent :=
  let start_dt := dtstart.value
  let start_tz := getTimezone isValid dtstart calendar_tz
  let end_dt := resolveEndDt start_dt (vevent.dtend.map DtProp.value) vevent.duration
  let end_tz :=
    match vevent.dtend with
    | some de => getTimezone isValid de calendar_tz
    | none => start_tz
  { iCalUID :=
      match truthyOpt vevent.uid with
      | some u => u
      | none => md5hexModel vevent.raw ++ "@imported"
    summary := resolveSummary vevent.summary vevent.description vevent.location
      vevent.busystatus vevent.transp
    description := truthyOpt vevent.description
    location := truthyOpt vevent.location
    start := renderStart start_dt start_tz
    endTime := renderEnd start_dt end_dt end_tz
    status := (truthyOpt vevent.status).map (fun s =>
      if strUpper s = "CANCELLED" then "cancelled"
      else if strUpper s = "TENTATIVE" then "tentative"
      else "confirmed")
    transparency := (truthyOpt vevent.transp).map (fun t =>
      if strUpper t = "TRANSPARENT" then "transparent" else "opaque")
    visibility := (truthyOpt vevent.classification).map (fun c =>
      if strUpper c = "PRIVATE" then "private"
      else if strUpper c = "CONFIDENTIAL" then "confidential"
      else "default")
    organizer := convOrganizer vevent.organizerAddr vevent.organizerCN
    attendees := if include_attendees then vevent.attendees.filterMap convAttendee else []
    reminders := buildReminders vevent.alarms
    sequence :=
      match vevent.sequence with
      | some n => if n ≠ 0 then some n else none
      | none => none
    outlookUID := truthyOpt vevent.uid }

/-- `_convert_vevent_to_google_event` (source lines 353-650): returns nothing
when the record has no `dtstart` (line 416-418), else the built event. -/
def convertVevent (isValid : String → Bool) (vevent : VEventRec) (calendar_tz : String)
    (include_attendees : Bool) : Option GEvent :=
  match vevent.dtstart with
  | none => none
  | some dtstart => some (mkGoogleEvent isValid vevent calendar_tz include_attendees dtstart)

/-- An all-day start property at the epoch, used by concrete test records. -/
def dp0 : DtProp := { value := TimeVal.dateOnly 0, tzid := none }

/-- A legacy record with every property absent. -/
def emptyRec : VEventRec :=
  { uid := none, raw := "", summary := none, description := none, location := none,
    dtstart := none, dtend := none, duration := none, busystatus := none, transp := none,
    status := none, classification := none, organizerAddr := none, organizerCN := none,
    attendees := [], alarms := [], sequence := none }

/-- A record with an explicit title and a location mentioning zoom. -/
def recTitle : VEventRec :=
  { emptyRec with
    summary := some "Standup"
    location := some "Join the zoom meeting"
    dtstart := some dp0 }

/-- A record carrying a unique id. -/
def recWithUid : VEventRec :=
  { emptyRec with
    uid := some "abc"
    raw := "BEGIN:VEVENT.UID:abc.END:VEVENT"
    dtstart := some dp0 }

/-- The alarm list of the spec's reminder example: two identical popup alarms
and one email alarm, each 30 minutes before the event. -/
def exampleAlarms : List VAlarm :=
  [{ action := some "DISPLAY", trigger := some (TriggerVal.rel (-1800)) },
   { action := some "DISPLAY", trigger := some (TriggerVal.rel (-1800)) },
   { action := some "EMAIL", trigger := some (TriggerVal.rel (-1800)) }]

/-- One record listed by the destination calendar: its native `iCalUID` and
the optional `extendedProperties.private.outlookUID` provenance field. -/
structure DestRecord where
  iCalUID : Option String
  outlookUID : Option String
deriving DecidableEq

/-- Python `set.add` guarded by truthiness, as the source writes
`if ical_uid: existing_uids.add(ical_uid)` (lines 733-734, 820-829). -/
def addUid (l : List String) (uid : String) : List String :=
  if uid = "" then l else if memD l uid then l else uid :: l

/-- `_get_existing_uids` (source lines 805-838): collect, per destination
record, its truthy `iCalUID` and its truthy `outlookUID` provenance
identifier. -/
def getExistingUids (dest : List DestRecord) : List String :=
  dest.foldl (fun acc rec =>
    addUid (addUid acc (rec.iCalUID.getD "")) (rec.outlookUID.getD "")) []

/-- The initial duplicate set of `import_events` (source lines 684-688): the
destination's identifiers when `skip_duplicates and not dry_run`, empty
otherwise. -/
def initialExisting (skip_duplicates dry_run : Bool) (dest : List DestRecord) : List String :=
  if skip_duplicates && !dry_run then getExistingUids dest else []

/-- Classification of a failed submission, by the HTTP status and message
tests of the source (lines 736-783). -/
inductive ErrKind where
  | rateLimit
  | conflict
  | structuralPerm
  | other
deriving DecidableEq

/-- The outcome of one `events().import_(...)` call. -/
inductive SubmitResult where
  | success
  | failure (kind : ErrKind)
deriving DecidableEq

/-- The terminal outcome recorded for one event of the batch. -/
inductive Outcome where
  | skippedDup
  | dryImported
  | imported
  | importedNoAtt
  | conflictSkipped
  | errored
deriving DecidableEq

/-- The state threaded through the per-event loop of `import_events`: the
duplicate set, the run counters, the number of submission calls made so far,
the trace of submitted payloads, and the outcome recorded per event. -/
structure ImpState where
  existing : List String
  imported : Nat
  skipped : Nat
  errors : Nat
  importedWithoutAttendees : Nat
  calls : Nat
  trace : List GEvent
  outcomes : List Outcome
deriving DecidableEq

/-- One call to the destination client: the result comes from the submission
script `sc` indexed by the running call counter, and the payload is recorded
in the trace. -/
def submitCall (sc : Nat → SubmitResult) (st : ImpState) (payload : GEvent) :
    SubmitResult × ImpState :=
  (sc st.calls, { st with calls := st.calls + 1, trace := st.trace ++ [payload] })

/-- The body of the per-event loop of `import_events` (source lines 695-783):
duplicate check, dry-run counting, submission, one retry after a rate limit,
conflict counted as skipped, one retry with a reduced copy (organizer and
attendees removed) after the structural permission error, all other failures
counted as errors. -/
def stepEvent (sc : Nat → SubmitResult) (skip_duplicates dry_run : Bool)
    (st : ImpState) (event : GEvent) : ImpState :=
  if skip_duplicates && memD st.existing event.iCalUID then
    { st with skipped := st.skipped + 1, outcomes := st.outcomes ++ [Outcome.skippedDup] }
  else if dry_run then
    { st with imported := st.imported + 1, outcomes := st.outcomes ++ [Outcome.dryImported] }
  else
    match submitCall sc st event with
    | (SubmitResult.success, st1) =>
      { st1 with imported := st1.imported + 1,
                 existing := addUid st1.existing event.iCalUID,
                 outcomes := st1.outcomes ++ [Outcome.imported] }
    | (SubmitResult.failure ErrKind.rateLimit, st1) =>
      match submitCall sc st1 event with
      | (SubmitResult.success, st2) =>
        { st2 with imported := st2.imported + 1,
                   existing := addUid st2.existing event.iCalUID,
                   outcomes := st2.outcomes ++ [Outcome.imported] }
      | (SubmitResult.failure _, st2) =>
        { st2 with errors := st2.errors + 1, outcomes := st2.outcomes ++ [Outcome.errored] }
    | (SubmitResult.failure ErrKind.conflict, st1) =>
      { st1 with skipped := st1.skipped + 1,
                 outcomes := st1.outcomes ++ [Outcome.conflictSkipped] }
    | (SubmitResult.failure ErrKind.structuralPerm, st1) =>
      match submitCall sc st1 { event with organizer := none, attendees := [] } with
      | (SubmitResult.success, st2) =>
        { st2 with imported := st2.imported + 1,
                   importedWithoutAttendees := st2.importedWithoutAttendees + 1,
                   existing := addUid st2.existing event.iCalUID,
                   outcomes := st2.outcomes ++ [Outcome.importedNoAtt] }
      | (SubmitResult.failure _, st2) =>
        { st2 with errors := st2.errors + 1, outcomes := st2.outcomes ++ [Outcome.errored] }
    | (SubmitResult.failure ErrKind.other, st1) =>
      { st1 with errors := st1.errors + 1, outcomes := st1.outcomes ++ [Outcome.errored] }

/-- The per-event loop of `import_events`, strictly in input order. -/
def importLoop (sc : Nat → SubmitResult) (skip_duplicates dry_run : Bool) :
    ImpState → List GEvent → ImpState
  | st, [] => st
  | st, e :: rest =>
    importLoop sc skip_duplicates dry_run (stepEvent sc skip_duplicates dry_run st e) rest

/-- The zeroed state `import_events` starts from, with the duplicate set
pre-populated according to the flags. -/
def initState (skip_duplicates dry_run : Bool) (dest : List DestRecord) : ImpState :=
  { existing := initialExisting skip_duplicates dry_run dest, imported := 0, skipped := 0,
    errors := 0, importedWithoutAttendees := 0, calls := 0, trace := [], outcomes := [] }

/-- `import_events` (source lines 667-803) over an abstract destination state
and submission script. -/
def importEvents (sc : Nat → SubmitResult) (skip_duplicates dry_run : Bool)
    (dest : List DestRecord) (events : List GEvent) : ImpState :=
  importLoop sc skip_duplicates dry_run (initState skip_duplicates dry_run dest) events

/-- The trace entries that carry a given external id. -/
def tracesFor (st : ImpState) (u : String) : List GEvent :=
  st.trace.filter (fun p => p.iCalUID == u)

/-- The number the translation phase adds to `stats['attendees_imported']` for
one record (source line 585): one per attendee included in the built event;
nothing for records that are not translated. -/
def attCountOf (isValid : String → Bool) (rec : VEventRec) (tz : String) (inc : Bool) : Nat :=
  match convertVevent isValid rec tz inc with
  | some e => e.attendees.length
  | none => 0

/-- The full pipeline for one file: translate all records (accumulating the
attendee counter as the source does during parsing), then import the
translated events.  Returns the import state and the final
`attendees_imported` counter. -/
def runPipeline (isValid : String → Bool) (records : List VEventRec) (tz : String)
    (inc : Bool) (dest : List DestRecord) (skip_duplicates dry_run : Bool)
    (sc : Nat → SubmitResult) : ImpState × Nat :=
  (importEvents sc skip_duplicates dry_run dest
      (records.filterMap (fun r => convertVevent isValid r tz inc)),
   records.foldl (fun acc r => acc + attCountOf isValid r tz inc) 0)

/-- The pair of identical events of the spec's duplicate test. -/
def evPair : GEvent :=
  { iCalUID := "pair-uid", summary := "Busy", description := none, location := none,
    start := GTime.gdate 0, endTime := GTime.gdate 1, status := none, transparency := none,
    visibility := none, organizer := none, attendees := [], reminders := [], sequence := none,
    outlookUID := some "pair-uid" }

/-- The submission script of the structural-error test: the first call fails
with the permission error, every later call succeeds. -/
def script3 : Nat → SubmitResult := fun n =>
  if n = 0 then SubmitResult.failure ErrKind.structuralPerm else SubmitResult.success

/-- A converted attendee used by the structural-error test event. -/
def attA : GAttendee :=
  { email := "a@b.c", displayName := none, responseStatus := "accepted",
    optional := false, resource := false }

/-- An event with organizer and attendee, submitted in the structural-error
test. -/
def evC3 : GEvent :=
  { evPair with
    iCalUID := "c3-uid"
    organizer := some { email := "boss@x.com", displayName := none }
    attendees := [attA] }

/-- The destination record of the C9 witness. -/
def destW : List DestRecord := [{ iCalUID := some "w-uid", outlookUID := none }]

/-- The input event of the C9 witness, whose id the destination already has. -/
def evW : GEvent := { evPair with iCalUID := "w-uid" }

/-- The destination state of the C9 counterexample: one existing record with
external id "a". -/
def destC9 : List DestRecord := [{ iCalUID := some "a", outlookUID := none }]

/-- The input event of the C9 counterexample, a duplicate of the destination
record. -/
def evC9 : GEvent := { evPair with iCalUID := "a" }

/-- The raw attendee of the C10 counterexample record. -/
def attRawA : VAttendee :=
  { calAddress := "mailto:a@b.c", cn := none, partstat := some "ACCEPTED",
    role := none, cutype := none }

/-- The legacy record of the C10 counterexample: one valid attendee and a
unique id the destination already holds. -/
def recC10 : VEventRec :=
  { emptyRec with
    uid := some "u"
    raw := "R"
    dtstart := some dp0
    attendees := [attRawA] }

/-- The destination state of the C10 counterexample. -/
def destC10 : List DestRecord := [{ iCalUID := some "u", outlookUID := none }]

theorem startsWithList_iff (n h : List Char) :
    startsWithList n h = true ↔ ∃ t, h = n ++ t := by
  induction n generalizing h with
  | nil => simp [startsWithList]
  | cons a as ih =>
    cases h with
    | nil => simp [startsWithList]
    | cons b bs =>
      simp only [startsWithList, Bool.and_eq_true, decide_eq_true_eq, ih]
      constructor
      · rintro ⟨rfl, t, rfl⟩; exact ⟨t, rfl⟩
      · rintro ⟨t, ht⟩
        injection ht with h1 h2
        exact ⟨h1.symm, t, h2⟩

theorem containsList_iff (h n : List Char) :
    containsList h n = true ↔ ∃ p t, h = p ++ n ++ t := by
  induction h with
  | nil =>
    simp only [containsList, List.isEmpty_iff]
    constructor
    · rintro rfl; exact ⟨[], [], rfl⟩
    · rintro ⟨p, t, ht⟩
      rcases List.append_eq_nil.mp (List.append_eq_nil.mp ht.symm).1 with ⟨_, h2⟩
      exact h2
  | cons a rest ih =>
    simp only [containsList, Bool.or_eq_true, startsWithList_iff, ih]
    constructor
    · rintro (⟨t, ht⟩ | ⟨p, t, ht⟩)
      · exact ⟨[], t, by simp [ht]⟩
      · exact ⟨a :: p, t, by simp [ht]⟩
    · rintro ⟨p, t, ht⟩
      cases p with
      | nil => exact Or.inl ⟨t, by simpa using ht⟩
      | cons x xs =>
        injection ht with h1 h2
        exact Or.inr ⟨xs, t, h2⟩

theorem strContains_trans_fixed {s sub sup : String}
    (hsub : containsList sup.toList sub.toList = true)
    (h : strContains s sup = true) : strContains s sub = true := by
  unfold strContains at *
  rcases (containsList_iff _ _).mp h with ⟨p, t, hpt⟩
  rcases (containsList_iff _ _).mp hsub with ⟨p2, t2, hpt2⟩
  refine (containsList_iff _ _).mpr ⟨p ++ p2, t2 ++ t, ?_⟩
  rw [hpt, hpt2]
  simp

/-- C7: `normalize_timezone` is a total function on strings that resolves in
order: empty input yields "UTC"; an input valid in the injected timezone
database is returned unchanged; an exact key of the legacy-name table yields
its mapped value; otherwise the first table entry (in definition order) whose
key contains the input or is contained in it, case-insensitively, yields its
mapped value; otherwise "UTC".  The concrete conjuncts check the spec's test
values against the stub database. -/
theorem c7_normalize_timezone (isValid : String → Bool) (s : String) :
    (s = "" → normalize_timezone isValid s = "UTC") ∧
    (s ≠ "" → isValid s = true → normalize_timezone isValid s = s) ∧
    (∀ v, s ≠ "" → isValid s = false → lookupMapping s = some v →
      normalize_timezone isValid s = v) ∧
    (∀ v, s ≠ "" → isValid s = false → lookupMapping s = none →
      substringMapping s = some v → normalize_timezone isValid s = v) ∧
    (s ≠ "" → isValid s = false → lookupMapping s = none →
      substringMapping s = none → normalize_timezone isValid s = "UTC") ∧
    normalize_timezone stubValid "Eastern Standard Time" = "America/New_York" ∧
    normalize_timezone stubValid "" = "UTC" ∧
    normalize_timezone stubValid "America/Chicago" = "America/Chicago" ∧
    normalize_timezone stubValid "Nonexistent Time" = "UTC" := by
  refine ⟨?_, ?_, ?_, ?_, ?_, by decide, by decide, by decide, by decide⟩
  · intro h; simp [normalize_timezone, h]
  · intro h hv; simp [normalize_timezone, h, hv]
  · intro v h hv hl; simp [normalize_timezone, h, hv, hl]
  · intro v h hv hl hp; simp [normalize_timezone, h, hv, hl, hp]
  · intro h hv hl hp; simp [normalize_timezone, h, hv, hl, hp]

/-- Witness for C7: a canonical identifier recognised by the injected database
is returned unchanged. -/
theorem c7_normalize_timezone_witness :
    ("America/Chicago" ≠ "" ∧ stubValid "America/Chicago" = true) ∧
    normalize_timezone stubValid "America/Chicago" = "America/Chicago" :=
  ⟨⟨by decide, by decide⟩,
   (c7_normalize_timezone stubValid "America/Chicago").2.1 (by decide) (by decide)⟩

theorem memD_iff {α : Type} [DecidableEq α] (l : List α) (x : α) :
    memD l x = true ↔ x ∈ l := by simp [memD]

theorem memD_eq_false {α : Type} [DecidableEq α] (l : List α) (x : α) :
    memD l x = false ↔ x ∉ l := by simp [memD]

theorem contains_teams_of_ms (s : String)
    (h : strContains s "microsoft teams" = true) : strContains s "teams" = true :=
  strContains_trans_fixed (by decide) h

theorem teamsCond_eq (ds ls : String) :
    (strContains ds "teams" || strContains ls "teams"
      || strContains ds "microsoft teams")
    = ((strContains ds "teams" || strContains ls "teams")
      || (strContains ds "microsoft teams" || strContains ls "microsoft teams")) := by
  cases h1 : strContains ds "teams"
  · have hc : strContains ds "microsoft teams" = false := by
      cases h3 : strContains ds "microsoft teams"
      · rfl
      · exact absurd (contains_teams_of_ms ds h3) (by simp [h1])
    cases h2 : strContains ls "teams"
    · have hd : strContains ls "microsoft teams" = false := by
        cases h4 : strContains ls "microsoft teams"
        · rfl
        · exact absurd (contains_teams_of_ms ls h4) (by simp [h2])
      simp [hc, hd]
    · simp
  · simp

theorem defaultTitle_eq_spec (d l b t : Option String) :
    defaultTitle d l b t = specDefaultTitle d l b t := by
  unfold defaultTitle specDefaultTitle
  rw [teamsCond_eq (strLower (d.getD "")) (strLower (l.getD ""))]

theorem defaultTitle_ne (d l b t : Option String) : defaultTitle d l b t ≠ "" := by
  unfold defaultTitle
  repeat' split
  all_goals decide

theorem strTrim_empty : strTrim "" = "" := by decide

/-- C5: the translated title equals the spec's strict-priority resolution, is
never empty, is exactly what `convertVevent` stores in the event, and an
explicit title wins over a "zoom" keyword in the location. -/
theorem c5_title_priority (summary description location busystatus transp : Option String) :
    resolveSummary summary description location busystatus transp
      = specTitlePriority summary description location busystatus transp ∧
    resolveSummary summary description location busystatus transp ≠ "" ∧
    (∀ (isValid : String → Bool) (rec : VEventRec) (tz : String) (inc : Bool) (ev : GEvent),
      convertVevent isValid rec tz inc = some ev →
      ev.summary = resolveSummary rec.summary rec.description rec.location
        rec.busystatus rec.transp) ∧
    resolveSummary (some "Standup") none (some "Join the zoom meeting") none none
      = "Standup" := by
  refine ⟨?_, ?_, ?_, by decide⟩
  · cases summary with
    | none => exact defaultTitle_eq_spec description location busystatus transp
    | some s =>
      show (if strTrim s ≠ "" then s
          else defaultTitle description location busystatus transp)
        = (if strTrim s ≠ "" then s
          else specDefaultTitle description location busystatus transp)
      by_cases h : strTrim s ≠ ""
      · rw [if_pos h, if_pos h]
      · rw [if_neg h, if_neg h]
        exact defaultTitle_eq_spec description location busystatus transp
  · cases summary with
    | none => exact defaultTitle_ne description location busystatus transp
    | some s =>
      show (if strTrim s ≠ "" then s
          else defaultTitle description location busystatus transp) ≠ ""
      by_cases h : strTrim s ≠ ""
      · rw [if_pos h]
        intro hs
        exact h (by rw [hs]; exact strTrim_empty)
      · rw [if_neg h]
        exact defaultTitle_ne description location busystatus transp
  · intro isValid rec tz inc ev h
    unfold convertVevent at h
    cases hd : rec.dtstart with
    | none => rw [hd] at h; simp at h
    | some dp =>
      rw [hd] at h
      simp only [Option.some.injEq] at h
      rw [← h]
      rfl

/-- Witness for C5: the translator keeps an explicit title even when the
location mentions zoom, and the built event records it. -/
theorem c5_title_priority_witness :
    convertVevent stubValid recTitle "UTC" true
        = some (mkGoogleEvent stubValid recTitle "UTC" true dp0) ∧
    (mkGoogleEvent stubValid recTitle "UTC" true dp0).summary
      = resolveSummary (some "Standup") none (some "Join the zoom meeting") none none :=
  ⟨rfl, (c5_title_priority (some "Standup") none (some "Join the zoom meeting") none
    none).2.2.1 stubValid recTitle "UTC" true _ rfl⟩

theorem convert_eq_some (isValid : String → Bool) (rec : VEventRec) (tz : String)
    (inc : Bool) (dp : DtProp) (h : rec.dtstart = some dp) :
    convertVevent isValid rec tz inc = some (mkGoogleEvent isValid rec tz inc dp) := by
  unfold convertVevent
  rw [h]

theorem mk_iCalUID (isValid : String → Bool) (rec : VEventRec) (tz : String)
    (inc : Bool) (dp : DtProp) :
    (mkGoogleEvent isValid rec tz inc dp).iCalUID
      = (match truthyOpt rec.uid with
         | some u => u
         | none => md5hexModel rec.raw ++ "@imported") := rfl

theorem mk_outlookUID (isValid : String → Bool) (rec : VEventRec) (tz : String)
    (inc : Bool) (dp : DtProp) :
    (mkGoogleEvent isValid rec tz inc dp).outlookUID = truthyOpt rec.uid := rfl

theorem mk_endTime (isValid : String → Bool) (rec : VEventRec) (tz : String)
    (inc : Bool) (dp : DtProp) :
    (mkGoogleEvent isValid rec tz inc dp).endTime
      = renderEnd dp.value
          (resolveEndDt dp.value (rec.dtend.map DtProp.value) rec.duration)
          (match rec.dtend with
           | some de => getTimezone isValid de tz
           | none => getTimezone isValid dp tz) := rfl

/-- C4: translation yields nothing exactly for records without a start time:
a record with no `dtstart` is silently skipped, and every record with a start
time produces an event. -/
theorem c4_missing_start (isValid : String → Bool) (rec : VEventRec) (tz : String)
    (inc : Bool) :
    (rec.dtstart = none → convertVevent isValid rec tz inc = none) ∧
    (∀ d, rec.dtstart = some d → (convertVevent isValid rec tz inc).isSome = true) := by
  constructor
  · intro h
    unfold convertVevent
    rw [h]
  · intro d h
    unfold convertVevent
    rw [h]
    rfl

/-- Witness for C4: a record with no properties at all is dropped, and a
record with a start date is translated. -/
theorem c4_missing_start_witness :
    (emptyRec.dtstart = none ∧ convertVevent stubValid emptyRec "UTC" true = none) ∧
    (recWithUid.dtstart = some dp0
      ∧ (convertVevent stubValid recWithUid "UTC" true).isSome = true) :=
  ⟨⟨rfl, (c4_missing_start stubValid emptyRec "UTC" true).1 rfl⟩,
   ⟨rfl, (c4_missing_start stubValid recWithUid "UTC" true).2 dp0 rfl⟩⟩

/-- C1: identifier resolution is deterministic.  When the record has a truthy
unique id it becomes both the event's `iCalUID` and its provenance
`outlookUID`; otherwise `iCalUID` is the deterministic digest of the record's
raw serialisation plus the fixed "@imported" suffix and the provenance field
is absent; and any two translated records with the same unique-id property and
the same raw serialisation get the same `iCalUID`, regardless of run
parameters.  (In the source the UID property is itself part of the raw
serialisation, so equal serialisations entail the equal-uid hypothesis.) -/
theorem c1_identifier_resolution (isValid : String → Bool) (rec : VEventRec) (tz : String)
    (inc : Bool) (dp : DtProp) (hstart : rec.dtstart = some dp) :
    (∀ u, truthyOpt rec.uid = some u →
      ∃ ev, convertVevent isValid rec tz inc = some ev
        ∧ ev.iCalUID = u ∧ ev.outlookUID = some u) ∧
    (truthyOpt rec.uid = none →
      ∃ ev, convertVevent isValid rec tz inc = some ev
        ∧ ev.iCalUID = md5hexModel rec.raw ++ "@imported" ∧ ev.outlookUID = none) ∧
    (∀ (isValid2 : String → Bool) (rec2 : VEventRec) (tz2 : String) (inc2 : Bool)
      (ev ev2 : GEvent), rec2.raw = rec.raw → truthyOpt rec2.uid = truthyOpt rec.uid →
      convertVevent isValid rec tz inc = some ev →
      convertVevent isValid2 rec2 tz2 inc2 = some ev2 →
      ev2.iCalUID = ev.iCalUID) := by
  refine ⟨?_, ?_, ?_⟩
  · intro u hu
    refine ⟨mkGoogleEvent isValid rec tz inc dp,
      convert_eq_some isValid rec tz inc dp hstart, ?_, ?_⟩
    · rw [mk_iCalUID, hu]
    · rw [mk_outlookUID, hu]
  · intro hu
    refine ⟨mkGoogleEvent isValid rec tz inc dp,
      convert_eq_some isValid rec tz inc dp hstart, ?_, ?_⟩
    · rw [mk_iCalUID, hu]
    · rw [mk_outlookUID, hu]
  · intro isValid2 rec2 tz2 inc2 ev ev2 hraw huid h1 h2
    have e1 : mkGoogleEvent isValid rec tz inc dp = ev :=
      Option.some.inj ((convert_eq_some isValid rec tz inc dp hstart).symm.trans h1)
    cases hd2 : rec2.dtstart with
    | none =>
      unfold convertVevent at h2
      rw [hd2] at h2
      simp at h2
    | some dp2 =>
      have e2 : mkGoogleEvent isValid2 rec2 tz2 inc2 dp2 = ev2 :=
        Option.some.inj ((convert_eq_some isValid2 rec2 tz2 inc2 dp2 hd2).symm.trans h2)
      rw [← e1, ← e2, mk_iCalUID, mk_iCalUID, huid, hraw]

/-- Witness for C1: a record with unique id "abc" is translated with that id
as both external and provenance identifier. -/
theorem c1_identifier_resolution_witness :
    truthyOpt recWithUid.uid = some "abc" ∧
    ∃ ev, convertVevent stubValid recWithUid "UTC" true = some ev
      ∧ ev.iCalUID = "abc" ∧ ev.outlookUID = some "abc" :=
  ⟨by decide,
   (c1_identifier_resolution stubValid recWithUid "UTC" true dp0 rfl).1 "abc" (by decide)⟩

/-- C6: the resolved end time follows the source's priority order (explicit
end, else start plus duration, else one day for all-day and one hour for timed
starts), the spec's concrete all-day example holds (day 19732 is 2024-01-10
and day 19733 is 2024-01-11 counted from the Unix epoch), and the translated
event's end field is exactly this resolution, rendered. -/
theorem c6_end_resolution (start : TimeVal) (dtendVal : Option TimeVal)
    (duration : Option TimeDelta) :
    (∀ e, dtendVal = some e → resolveEndDt start dtendVal duration = e) ∧
    (∀ dl, dtendVal = none → duration = some dl →
      resolveEndDt start dtendVal duration = addDelta start dl) ∧
    (∀ d, dtendVal = none → duration = none → start = TimeVal.dateOnly d →
      resolveEndDt start dtendVal duration = TimeVal.dateOnly (d + 1)) ∧
    (∀ s tzi, dtendVal = none → duration = none → start = TimeVal.dateTime s tzi →
      resolveEndDt start dtendVal duration = TimeVal.dateTime (s + 3600) tzi) ∧
    resolveEndDt (TimeVal.dateOnly 19732) none none = TimeVal.dateOnly 19733 ∧
    (∀ (isValid : String → Bool) (rec : VEventRec) (tz : String) (inc : Bool)
      (ev : GEvent) (dp : DtProp), rec.dtstart = some dp →
      convertVevent isValid rec tz inc = some ev →
      ev.endTime = renderEnd dp.value
        (resolveEndDt dp.value (rec.dtend.map DtProp.value) rec.duration)
        (match rec.dtend with
         | some de => getTimezone isValid de tz
         | none => getTimezone isValid dp tz)) := by
  refine ⟨?_, ?_, ?_, ?_, by decide, ?_⟩
  · rintro e rfl
    rfl
  · rintro dl rfl rfl
    rfl
  · rintro d rfl rfl rfl
    rfl
  · rintro s tzi rfl rfl rfl
    show TimeVal.dateTime (s + 0 * 86400 + 3600) tzi = TimeVal.dateTime (s + 3600) tzi
    norm_num
  · intro isValid rec tz inc ev dp hd h
    have e1 : mkGoogleEvent isValid rec tz inc dp = ev :=
      Option.some.inj ((convert_eq_some isValid rec tz inc dp hd).symm.trans h)
    rw [← e1]
    exact mk_endTime isValid rec tz inc dp

/-- Witness for C6: an explicit end property wins. -/
theorem c6_end_resolution_witness :
    resolveEndDt (TimeVal.dateOnly 5) (some (TimeVal.dateOnly 7)) none = TimeVal.dateOnly 7 :=
  (c6_end_resolution (TimeVal.dateOnly 5) (some (TimeVal.dateOnly 7)) none).1
    (TimeVal.dateOnly 7) rfl

theorem dedup_sublist (l : List GReminder) (seen : List (String × Nat)) :
    List.Sublist (dedupReminders l seen) l := by
  induction l generalizing seen with
  | nil => simp [dedupReminders]
  | cons r rest ih =>
    unfold dedupReminders
    by_cases hc : memD seen (r.method, r.minutes) = true
    · rw [if_pos hc]
      exact (ih seen).cons r
    · rw [if_neg hc]
      exact (ih ((r.method, r.minutes) :: seen)).cons₂ r

theorem dedup_not_seen (l : List GReminder) (seen : List (String × Nat)) :
    (∀ r ∈ dedupReminders l seen, (r.method, r.minutes) ∉ seen) ∧
    List.Pairwise (fun a b => (a.method, a.minutes) ≠ (b.method, b.minutes))
      (dedupReminders l seen) := by
  induction l generalizing seen with
  | nil => simp [dedupReminders]
  | cons r rest ih =>
    unfold dedupReminders
    by_cases hc : memD seen (r.method, r.minutes) = true
    · rw [if_pos hc]
      exact ih seen
    · rw [if_neg hc]
      obtain ⟨hns, hpw⟩ := ih ((r.method, r.minutes) :: seen)
      constructor
      · intro x hx
        rcases List.mem_cons.mp hx with rfl | hx
        · simpa [memD] using hc
        · intro hmem
          exact hns x hx (List.mem_cons_of_mem _ hmem)
      · refine List.Pairwise.cons ?_ hpw
        intro b hb heq
        exact hns b hb (heq ▸ List.mem_cons_self _ _)

theorem mkReminder_minutes_le (a : VAlarm) (r : GReminder) (h : mkReminder a = some r) :
    r.minutes ≤ 40320 := by
  unfold mkReminder at h
  cases ht : a.trigger with
  | none =>
    rw [ht] at h
    simp at h
  | some tv =>
    cases tv with
    | rel s =>
      rw [ht] at h
      simp only [Option.some.injEq] at h
      subst h
      dsimp
      split
      · exact le_refl _
      · omega
    | absTime t =>
      rw [ht] at h
      simp at h

theorem mkReminder_method (a : VAlarm) (r : GReminder) (h : mkReminder a = some r) :
    r.method = (match truthyOpt a.action with
      | some act => if strUpper act = "EMAIL" then "email" else "popup"
      | none => "popup") := by
  unfold mkReminder at h
  cases ht : a.trigger with
  | none =>
    rw [ht] at h
    simp at h
  | some tv =>
    cases tv with
    | rel s =>
      rw [ht] at h
      simp only [Option.some.injEq] at h
      subst h
      rfl
    | absTime t =>
      rw [ht] at h
      simp at h

/-- C8: the built reminder list has at most five entries, no duplicate
(method, minutes) pairs, every entry clamped at 40320 minutes, preserves
first-seen order (it is a subsequence of the raw per-alarm reminders), the
method is "email" exactly for a truthy EMAIL action, and the spec's concrete
deduplication and clamping examples hold. -/
theorem c8_reminder_normalization (alarms : List VAlarm) :
    (buildReminders alarms).length ≤ 5 ∧
    List.Pairwise (fun a b => (a.method, a.minutes) ≠ (b.method, b.minutes))
      (buildReminders alarms) ∧
    (∀ r ∈ buildReminders alarms, r.minutes ≤ 40320) ∧
    List.Sublist (buildReminders alarms) (alarms.filterMap mkReminder) ∧
    (∀ a r, mkReminder a = some r →
      r.method = (match truthyOpt a.action with
        | some act => if strUpper act = "EMAIL" then "email" else "popup"
        | none => "popup")) ∧
    buildReminders exampleAlarms
      = [{ method := "popup", minutes := 30 }, { method := "email", minutes := 30 }] ∧
    mkReminder { action := none, trigger := some (TriggerVal.rel (-3000000)) }
      = some { method := "popup", minutes := 40320 } := by
  refine ⟨?_, ?_, ?_, ?_, mkReminder_method, by decide, by decide⟩
  · exact List.length_take_le 5 _
  · exact List.Pairwise.sublist (List.take_sublist 5 _) (dedup_not_seen _ []).2
  · intro r hr
    have h1 : r ∈ dedupReminders (alarms.filterMap mkReminder) [] :=
      (List.take_sublist 5 _).subset hr
    have h2 : r ∈ alarms.filterMap mkReminder := (dedup_sublist _ _).subset h1
    rcases List.mem_filterMap.mp h2 with ⟨a, _, ha⟩
    exact mkReminder_minutes_le a r ha
  · exact (List.take_sublist 5 _).trans (dedup_sublist _ _)

/-- Witness for C8: the deduplicated example list contains the popup reminder
and its minutes respect the cap. -/
theorem c8_reminder_normalization_witness :
    GReminder.mk "popup" 30 ∈ buildReminders exampleAlarms ∧
    (GReminder.mk "popup" 30).minutes ≤ 40320 :=
  ⟨by decide,
   (c8_reminder_normalization exampleAlarms).2.2.1 (GReminder.mk "popup" 30) (by decide)⟩

theorem addUid_mem_mono (l : List String) (u x : String) (h : x ∈ l) : x ∈ addUid l u := by
  unfold addUid
  split
  · exact h
  · split
    · exact h
    · exact List.mem_cons_of_mem _ h

theorem addUid_mem_self (l : List String) (u : String) (hu : u ≠ "") : u ∈ addUid l u := by
  unfold addUid
  rw [if_neg hu]
  split
  · next h => exact (memD_iff _ _).mp h
  · exact List.mem_cons_self _ _

theorem addUid_mem_of_ne (l : List String) (u x : String) (hne : x ≠ u) :
    x ∈ addUid l u ↔ x ∈ l := by
  unfold addUid
  split
  · exact Iff.rfl
  · split
    · exact Iff.rfl
    · simp [List.mem_cons, hne]

theorem step_dry (sc : Nat → SubmitResult) (f : Bool) (st : ImpState) (e : GEvent)
    (hc : (f && memD st.existing e.iCalUID) = false) :
    stepEvent sc f true st e =
      { st with imported := st.imported + 1,
                outcomes := st.outcomes ++ [Outcome.dryImported] } := by
  unfold stepEvent
  rw [if_neg (by simp [hc]), if_pos rfl]

theorem step_conflict (sc : Nat → SubmitResult) (f : Bool) (st : ImpState) (e : GEvent)
    (hc : (f && memD st.existing e.iCalUID) = false)
    (hs : sc st.calls = SubmitResult.failure ErrKind.conflict) :
    stepEvent sc f false st e =
      { st with skipped := st.skipped + 1, calls := st.calls + 1, trace := st.trace ++ [e],
                outcomes := st.outcomes ++ [Outcome.conflictSkipped] } := by
  unfold stepEvent submitCall
  rw [if_neg (by simp [hc]), if_neg (by simp), hs]

theorem step_other (sc : Nat → SubmitResult) (f : Bool) (st : ImpState) (e : GEvent)
    (hc : (f && memD st.existing e.iCalUID) = false)
    (hs : sc st.calls = SubmitResult.failure ErrKind.other) :
    stepEvent sc f false st e =
      { st with errors := st.errors + 1, calls := st.calls + 1, trace := st.trace ++ [e],
                outcomes := st.outcomes ++ [Outcome.errored] } := by
  unfold stepEvent submitCall
  rw [if_neg (by simp [hc]), if_neg (by simp), hs]

theorem step_rateLimit_success (sc : Nat → SubmitResult) (f : Bool) (st : ImpState)
    (e : GEvent) (hc : (f && memD st.existing e.iCalUID) = false)
    (hs : sc st.calls = SubmitResult.failure ErrKind.rateLimit)
    (hs2 : sc (st.calls + 1) = SubmitResult.success) :
    stepEvent sc f false st e =
      { st with imported := st.imported + 1,
                existing := addUid st.existing e.iCalUID,
                calls := st.calls + 2,
                trace := st.trace ++ [e, e],
                outcomes := st.outcomes ++ [Outcome.imported] } := by
  unfold stepEvent submitCall
  rw [if_neg (by simp [hc]), if_neg (by simp), hs]
  simp [hs2]

theorem step_rateLimit_failure (sc : Nat → SubmitResult) (f : Bool) (st : ImpState)
    (e : GEvent) (k : ErrKind) (hc : (f && memD st.existing e.iCalUID) = false)
    (hs : sc st.calls = SubmitResult.failure ErrKind.rateLimit)
    (hs2 : sc (st.calls + 1) = SubmitResult.failure k) :
    stepEvent sc f false st e =
      { st with errors := st.errors + 1,
                calls := st.calls + 2,
                trace := st.trace ++ [e, e],
                outcomes := st.outcomes ++ [Outcome.errored] } := by
  unfold stepEvent submitCall
  rw [if_neg (by simp [hc]), if_neg (by simp), hs]
  simp [hs2]

theorem step_struct_success (sc : Nat → SubmitResult) (f : Bool) (st : ImpState)
    (e : GEvent) (hc : (f && memD st.existing e.iCalUID) = false)
    (hs : sc st.calls = SubmitResult.failure ErrKind.structuralPerm)
    (hs2 : sc (st.calls + 1) = SubmitResult.success) :
    stepEvent sc f false st e =
      { st with imported := st.imported + 1,
                importedWithoutAttendees := st.importedWithoutAttendees + 1,
                existing := addUid st.existing e.iCalUID,
                calls := st.calls + 2,
                trace := st.trace ++ [e, { e with organizer := none, attendees := [] }],
                outcomes := st.outcomes ++ [Outcome.importedNoAtt] } := by
  unfold stepEvent submitCall
  rw [if_neg (by simp [hc]), if_neg (by simp), hs]
  simp [hs2]

theorem step_struct_failure (sc : Nat → SubmitResult) (f : Bool) (st : ImpState)
    (e : GEvent) (k : ErrKind) (hc : (f && memD st.existing e.iCalUID) = false)
    (hs : sc st.calls = SubmitResult.failure ErrKind.structuralPerm)
    (hs2 : sc (st.calls + 1) = SubmitResult.failure k) :
    stepEvent sc f false st e =
      { st with errors := st.errors + 1,
                calls := st.calls + 2,
                trace := st.trace ++ [e, { e with organizer := none, attendees := [] }],
                outcomes := st.outcomes ++ [Outcome.errored] } := by
  unfold stepEvent submitCall
  rw [if_neg (by simp [hc]), if_neg (by simp), hs]
  simp [hs2]

theorem step_skip (sc : Nat → SubmitResult) (d : Bool) (st : ImpState) (e : GEvent)
    (hmem : memD st.existing e.iCalUID = true) :
    stepEvent sc true d st e =
      { st with skipped := st.skipped + 1,
                outcomes := st.outcomes ++ [Outcome.skippedDup] } := by
  unfold stepEvent
  rw [if_pos (by simp [hmem])]

theorem step_success (sc : Nat → SubmitResult) (f : Bool) (st : ImpState) (e : GEvent)
    (hc : (f && memD st.existing e.iCalUID) = false) (hs : sc st.calls = SubmitResult.success) :
    stepEvent sc f false st e =
      { st with imported := st.imported + 1,
                existing := addUid st.existing e.iCalUID,
                calls := st.calls + 1,
                trace := st.trace ++ [e],
                outcomes := st.outcomes ++ [Outcome.imported] } := by
  unfold stepEvent submitCall
  rw [if_neg (by simp [hc])]
  rw [if_neg (by simp)]
  simp only [hs]

theorem step_shape (sc : Nat → SubmitResult) (f d : Bool) (st : ImpState) (e : GEvent) :
    ∃ (o : Outcome) (t : List GEvent),
      (stepEvent sc f d st e).outcomes = st.outcomes ++ [o] ∧
      (stepEvent sc f d st e).trace = st.trace ++ t ∧
      (∀ p ∈ t, p.iCalUID = e.iCalUID) ∧
      ((stepEvent sc f d st e).existing = st.existing
        ∨ (stepEvent sc f d st e).existing = addUid st.existing e.iCalUID) := by
  have memtwo : ∀ p ∈ [e, { e with organizer := none, attendees := ([] : List GAttendee) }],
      p.iCalUID = e.iCalUID := by
    intro p hp
    rcases List.mem_cons.mp hp with rfl | hp2
    · rfl
    · rcases List.mem_cons.mp hp2 with rfl | hp3
      · rfl
      · cases hp3
  cases hb : (f && memD st.existing e.iCalUID) with
  | true =>
    rw [Bool.and_eq_true] at hb
    obtain ⟨hf, hm⟩ := hb
    subst hf
    rw [step_skip sc d st e hm]
    exact ⟨Outcome.skippedDup, [], rfl, by simp, (by intro p hp; cases hp), Or.inl rfl⟩
  | false =>
    cases d with
    | true =>
      rw [step_dry sc f st e hb]
      exact ⟨Outcome.dryImported, [], rfl, by simp, (by intro p hp; cases hp), Or.inl rfl⟩
    | false =>
      cases hs : sc st.calls with
      | success =>
        rw [step_success sc f st e hb hs]
        refine ⟨Outcome.imported, [e], rfl, rfl, ?_, Or.inr rfl⟩
        intro p hp
        rcases List.mem_cons.mp hp with rfl | hp2
        · rfl
        · cases hp2
      | failure k =>
        cases k with
        | rateLimit =>
          cases hs2 : sc (st.calls + 1) with
          | success =>
            rw [step_rateLimit_success sc f st e hb hs hs2]
            refine ⟨Outcome.imported, [e, e], rfl, rfl, ?_, Or.inr rfl⟩
            intro p hp
            rcases List.mem_cons.mp hp with rfl | hp2
            · rfl
            · rcases List.mem_cons.mp hp2 with rfl | hp3
              · rfl
              · cases hp3
          | failure k2 =>
            rw [step_rateLimit_failure sc f st e k2 hb hs hs2]
            refine ⟨Outcome.errored, [e, e], rfl, rfl, ?_, Or.inl rfl⟩
            intro p hp
            rcases List.mem_cons.mp hp with rfl | hp2
            · rfl
            · rcases List.mem_cons.mp hp2 with rfl | hp3
              · rfl
              · cases hp3
        | conflict =>
          rw [step_conflict sc f st e hb hs]
          refine ⟨Outcome.conflictSkipped, [e], rfl, rfl, ?_, Or.inl rfl⟩
          intro p hp
          rcases List.mem_cons.mp hp with rfl | hp2
          · rfl
          · cases hp2
        | structuralPerm =>
          cases hs2 : sc (st.calls + 1) with
          | success =>
            rw [step_struct_success sc f st e hb hs hs2]
            exact ⟨Outcome.importedNoAtt,
              [e, { e with organizer := none, attendees := [] }], rfl, rfl, memtwo,
              Or.inr rfl⟩
          | failure k2 =>
            rw [step_struct_failure sc f st e k2 hb hs hs2]
            exact ⟨Outcome.errored,
              [e, { e with organizer := none, attendees := [] }], rfl, rfl, memtwo,
              Or.inl rfl⟩
        | other =>
          rw [step_other sc f st e hb hs]
          refine ⟨Outcome.errored, [e], rfl, rfl, ?_, Or.inl rfl⟩
          intro p hp
          rcases List.mem_cons.mp hp with rfl | hp2
          · rfl
          · cases hp2

theorem loop_append (sc : Nat → SubmitResult) (f d : Bool) (st : ImpState)
    (l1 l2 : List GEvent) :
    importLoop sc f d st (l1 ++ l2) = importLoop sc f d (importLoop sc f d st l1) l2 := by
  induction l1 generalizing st with
  | nil => simp [importLoop]
  | cons e rest ih => simp [importLoop, ih]

theorem loop_outcomes (sc : Nat → SubmitResult) (f d : Bool) (st : ImpState)
    (l : List GEvent) :
    ∃ out, (importLoop sc f d st l).outcomes = st.outcomes ++ out ∧ out.length = l.length := by
  induction l generalizing st with
  | nil => exact ⟨[], by simp [importLoop], rfl⟩
  | cons e rest ih =>
    obtain ⟨o, t, ho, _, _, _⟩ := step_shape sc f d st e
    obtain ⟨out, hout, hlen⟩ := ih (stepEvent sc f d st e)
    exact ⟨[o] ++ out, by simp [importLoop, hout, ho], by simp [hlen]⟩

theorem step_mem_mono (sc : Nat → SubmitResult) (f d : Bool) (st : ImpState) (e : GEvent)
    (u : String) (h : u ∈ st.existing) : u ∈ (stepEvent sc f d st e).existing := by
  obtain ⟨o, t, _, _, _, hex⟩ := step_shape sc f d st e
  rcases hex with hex | hex
  · rw [hex]; exact h
  · rw [hex]; exact addUid_mem_mono _ _ _ h

theorem step_not_mem (sc : Nat → SubmitResult) (f d : Bool) (st : ImpState) (e : GEvent)
    (u : String) (hne : e.iCalUID ≠ u) (h : u ∉ st.existing) :
    u ∉ (stepEvent sc f d st e).existing := by
  obtain ⟨o, t, _, _, _, hex⟩ := step_shape sc f d st e
  rcases hex with hex | hex
  · rw [hex]; exact h
  · rw [hex]
    exact fun hm => h ((addUid_mem_of_ne _ _ _ (Ne.symm hne)).mp hm)

theorem loop_not_mem (sc : Nat → SubmitResult) (f d : Bool) (st : ImpState)
    (l : List GEvent) (u : String) (hl : ∀ e ∈ l, e.iCalUID ≠ u) (h : u ∉ st.existing) :
    u ∉ (importLoop sc f d st l).existing := by
  induction l generalizing st with
  | nil => simpa [importLoop] using h
  | cons e rest ih =>
    exact ih (stepEvent sc f d st e) (fun x hx => hl x (List.mem_cons_of_mem _ hx))
      (step_not_mem sc f d st e u (hl e (List.mem_cons_self _ _)) h)

theorem filter_uid_nil (u : String) (t : List GEvent) (h : ∀ p ∈ t, p.iCalUID ≠ u) :
    t.filter (fun p => p.iCalUID == u) = [] := by
  induction t with
  | nil => rfl
  | cons a t ih =>
    rw [List.filter_cons,
      if_neg (by simp [beq_eq_false_iff_ne.mpr (h a (List.mem_cons_self _ _))])]
    exact ih (fun p hp => h p (List.mem_cons_of_mem _ hp))

theorem step_trace_filter_ne (sc : Nat → SubmitResult) (f d : Bool) (st : ImpState)
    (e : GEvent) (u : String) (hne : e.iCalUID ≠ u) :
    tracesFor (stepEvent sc f d st e) u = tracesFor st u := by
  obtain ⟨o, t, _, htr, hmem, _⟩ := step_shape sc f d st e
  unfold tracesFor
  rw [htr, List.filter_append,
    filter_uid_nil u t (fun p hp => (hmem p hp) ▸ hne), List.append_nil]

theorem loop_trace_filter_ne (sc : Nat → SubmitResult) (f d : Bool) (st : ImpState)
    (l : List GEvent) (u : String) (hl : ∀ e ∈ l, e.iCalUID ≠ u) :
    tracesFor (importLoop sc f d st l) u = tracesFor st u := by
  induction l generalizing st with
  | nil => simp [importLoop]
  | cons e rest ih =>
    rw [show importLoop sc f d st (e :: rest)
        = importLoop sc f d (stepEvent sc f d st e) rest from rfl]
    rw [ih (stepEvent sc f d st e) (fun x hx => hl x (List.mem_cons_of_mem _ hx))]
    exact step_trace_filter_ne sc f d st e u (hl e (List.mem_cons_self _ _))

theorem step_after (sc : Nat → SubmitResult) (d : Bool) (st : ImpState) (e : GEvent)
    (u : String) (hmem : u ∈ st.existing) :
    tracesFor (stepEvent sc true d st e) u = tracesFor st u
      ∧ u ∈ (stepEvent sc true d st e).existing := by
  by_cases he : e.iCalUID = u
  · rw [step_skip sc d st e (by rw [he]; exact (memD_iff _ _).mpr hmem)]
    exact ⟨rfl, hmem⟩
  · exact ⟨step_trace_filter_ne sc true d st e u he, step_mem_mono sc true d st e u hmem⟩

theorem loop_after (sc : Nat → SubmitResult) (d : Bool) (st : ImpState)
    (l : List GEvent) (u : String) (hmem : u ∈ st.existing) :
    tracesFor (importLoop sc true d st l) u = tracesFor st u
      ∧ u ∈ (importLoop sc true d st l).existing := by
  induction l generalizing st with
  | nil => exact ⟨rfl, hmem⟩
  | cons e rest ih =>
    obtain ⟨ht, hm⟩ := step_after sc d st e u hmem
    obtain ⟨ht2, hm2⟩ := ih (stepEvent sc true d st e) hm
    exact ⟨ht2.trans ht, hm2⟩

theorem loop_cons (sc : Nat → SubmitResult) (f d : Bool) (st : ImpState) (e : GEvent)
    (rest : List GEvent) :
    importLoop sc f d st (e :: rest) = importLoop sc f d (stepEvent sc f d st e) rest := rfl

theorem truthyOpt_some_ne (o : Option String) (s : String) (h : truthyOpt o = some s) :
    s ≠ "" := by
  cases o with
  | none => simp [truthyOpt] at h
  | some x =>
    simp only [truthyOpt] at h
    by_cases hx : x = ""
    · rw [if_pos hx] at h
      simp at h
    · rw [if_neg hx] at h
      rw [← Option.some.inj h]
      exact hx

theorem append_imported_ne (s : String) : s ++ "@imported" ≠ "" := by
  intro h
  have hlen := congrArg String.length h
  rw [String.length_append] at hlen
  have h9 : ("@imported" : String).length = 9 := by decide
  have h0 : ("" : String).length = 0 := rfl
  rw [h9, h0] at hlen
  omega

theorem convert_uid_ne (isValid : String → Bool) (rec : VEventRec) (tz : String)
    (inc : Bool) (ev : GEvent) (h : convertVevent isValid rec tz inc = some ev) :
    ev.iCalUID ≠ "" := by
  cases hd : rec.dtstart with
  | none =>
    unfold convertVevent at h
    rw [hd] at h
    simp at h
  | some dp =>
    have e1 : mkGoogleEvent isValid rec tz inc dp = ev :=
      Option.some.inj ((convert_eq_some isValid rec tz inc dp hd).symm.trans h)
    rw [← e1, mk_iCalUID]
    cases hu : truthyOpt rec.uid with
    | some u =>
      simp only [hu]
      exact truthyOpt_some_ne _ _ hu
    | none =>
      simp only [hu]
      exact append_imported_ne _

/-- C2: with duplicate skipping on and dry-run off, a successful submission
adds the event's external id to the duplicate set before the next event, so
when the first occurrence of an id is imported, every later event with the
same id is counted skipped-duplicate and its payload is never submitted (the
whole-run trace carries exactly one payload with that id); translation always
produces a non-empty external id, so the guard applies to every translated
event; and for the concrete identical pair, one event is imported and exactly
one is skipped. -/
theorem c2_within_batch_duplicates (dest : List DestRecord) (pre mid post : List GEvent)
    (e1 e2 : GEvent) (u : String)
    (h1 : e1.iCalUID = u) (h2 : e2.iCalUID = u) (hu : u ≠ "")
    (hpre : ∀ e ∈ pre, e.iCalUID ≠ u)
    (hdest : u ∉ getExistingUids dest) :
    (∃ o1 o2 o3,
      (importEvents (fun _ => SubmitResult.success) true false dest
        (pre ++ e1 :: (mid ++ e2 :: post))).outcomes
        = o1 ++ Outcome.imported :: (o2 ++ Outcome.skippedDup :: o3)
      ∧ o1.length = pre.length ∧ o2.length = mid.length) ∧
    tracesFor (importEvents (fun _ => SubmitResult.success) true false dest
        (pre ++ e1 :: (mid ++ e2 :: post))) u = [e1] ∧
    (∀ (isValid : String → Bool) (rec : VEventRec) (tz : String) (inc : Bool) (ev : GEvent),
      convertVevent isValid rec tz inc = some ev → ev.iCalUID ≠ "") ∧
    (importEvents (fun _ => SubmitResult.success) true false [] [evPair, evPair]).skipped = 1 ∧
    (importEvents (fun _ => SubmitResult.success) true false [] [evPair, evPair]).imported
      = 1 := by
  set sc : Nat → SubmitResult := fun _ => SubmitResult.success with hsc
  set s0 := initState true false dest with hs0
  set s1 := importLoop sc true false s0 pre with hs1
  set s2 := stepEvent sc true false s1 e1 with hs2
  set s3 := importLoop sc true false s2 mid with hs3
  set s4 := stepEvent sc true false s3 e2 with hs4
  have hrun : importEvents sc true false dest (pre ++ e1 :: (mid ++ e2 :: post))
      = importLoop sc true false s4 post := by
    unfold importEvents
    rw [loop_append, loop_cons, loop_append, loop_cons, hs4, hs3, hs2, hs1, hs0]
  have hs0ex : s0.existing = getExistingUids dest := by
    rw [hs0]
    simp [initState, initialExisting]
  have hm1 : u ∉ s1.existing := by
    rw [hs1]
    exact loop_not_mem sc true false s0 pre u hpre (hs0ex ▸ hdest)
  have ht1 : tracesFor s1 u = [] := by
    rw [hs1, loop_trace_filter_ne sc true false s0 pre u hpre, hs0]
    rfl
  have hcond : (true && memD s1.existing e1.iCalUID) = false := by
    rw [h1]
    simp [memD, hm1]
  have hstep1 : s2 = { s1 with
      imported := s1.imported + 1
      existing := addUid s1.existing e1.iCalUID
      calls := s1.calls + 1
      trace := s1.trace ++ [e1]
      outcomes := s1.outcomes ++ [Outcome.imported] } := by
    rw [hs2]
    exact step_success sc true s1 e1 hcond (by rw [hsc])
  have hm2 : u ∈ s2.existing := by
    rw [hstep1]
    show u ∈ addUid s1.existing e1.iCalUID
    rw [h1]
    exact addUid_mem_self s1.existing u hu
  have ht2 : tracesFor s2 u = [e1] := by
    rw [hstep1]
    show (s1.trace ++ [e1]).filter (fun p => p.iCalUID == u) = [e1]
    rw [List.filter_append, show s1.trace.filter (fun p => p.iCalUID == u) = [] from ht1]
    simp [h1]
  have hout2 : s2.outcomes = s1.outcomes ++ [Outcome.imported] := by rw [hstep1]
  obtain ⟨htr3, hm3⟩ := loop_after sc false s2 mid u hm2
  obtain ⟨out2, hout3, hlen2⟩ := loop_outcomes sc true false s2 mid
  have hmd : memD s3.existing e2.iCalUID = true := by
    rw [h2, hs3]
    exact (memD_iff _ _).mpr hm3
  have hstep2 : s4 = { s3 with
      skipped := s3.skipped + 1
      outcomes := s3.outcomes ++ [Outcome.skippedDup] } := by
    rw [hs4]
    exact step_skip sc false s3 e2 (hs3 ▸ hmd)
  have hm4 : u ∈ s4.existing := by
    rw [hstep2]
    show u ∈ s3.existing
    rw [hs3]
    exact hm3
  have ht4 : tracesFor s4 u = [e1] := by
    rw [hstep2]
    show s3.trace.filter (fun p => p.iCalUID == u) = [e1]
    have : tracesFor s3 u = [e1] := by
      rw [hs3, htr3]
      exact ht2
    exact this
  have hout4 : s4.outcomes = s3.outcomes ++ [Outcome.skippedDup] := by rw [hstep2]
  obtain ⟨htr5, hm5⟩ := loop_after sc false s4 post u hm4
  obtain ⟨out3, hout5, hlen3⟩ := loop_outcomes sc true false s4 post
  obtain ⟨out1, hout1, hlen1⟩ := loop_outcomes sc true false s0 pre
  refine ⟨⟨out1, out2, out3, ?_, hlen1, hlen2⟩, ?_,
    fun isValid rec tz inc ev h => convert_uid_ne isValid rec tz inc ev h,
    by decide, by decide⟩
  · rw [hrun, hout5, hout4, hs3, hout3, hout2, hs1, hout1, hs0]
    show (((((initState true false dest).outcomes ++ out1) ++ [Outcome.imported]) ++ out2)
        ++ [Outcome.skippedDup]) ++ out3
      = out1 ++ Outcome.imported :: (out2 ++ Outcome.skippedDup :: out3)
    simp [initState]
  · rw [hrun, htr5]
    exact ht4

/-- C3 (amended): an event whose submission fails with the structural
permission error is retried exactly once with a reduced copy from which
organizer and attendees are removed, the original payload not being mutated
(the trace holds the intact original followed by the reduced copy); if the
retry succeeds the run increments both the imported counter and the
imported-without-attendees counter (the summary reports the latter as a
subset of the former), and if it fails the outcome is errored. -/
theorem c3_structural_fallback (ev : GEvent) (dest : List DestRecord)
    (sc : Nat → SubmitResult)
    (hs : sc 0 = SubmitResult.failure ErrKind.structuralPerm) :
    (importEvents sc false false dest [ev]).trace
      = [ev, { ev with organizer := none, attendees := [] }] ∧
    (sc 1 = SubmitResult.success →
      (importEvents sc false false dest [ev]).imported = 1 ∧
      (importEvents sc false false dest [ev]).importedWithoutAttendees = 1 ∧
      (importEvents sc false false dest [ev]).errors = 0 ∧
      (importEvents sc false false dest [ev]).outcomes = [Outcome.importedNoAtt]) ∧
    (∀ k, sc 1 = SubmitResult.failure k →
      (importEvents sc false false dest [ev]).errors = 1 ∧
      (importEvents sc false false dest [ev]).imported = 0 ∧
      (importEvents sc false false dest [ev]).importedWithoutAttendees = 0 ∧
      (importEvents sc false false dest [ev]).outcomes = [Outcome.errored]) := by
  have hrun : importEvents sc false false dest [ev]
      = stepEvent sc false false (initState false false dest) ev := rfl
  refine ⟨?_, ?_, ?_⟩
  · cases hs2 : sc 1 with
    | success =>
      rw [hrun, step_struct_success sc false (initState false false dest) ev (by simp) hs hs2]
      rfl
    | failure k =>
      rw [hrun, step_struct_failure sc false (initState false false dest) ev k (by simp) hs hs2]
      rfl
  · intro hs2
    rw [hrun, step_struct_success sc false (initState false false dest) ev (by simp) hs hs2]
    exact ⟨rfl, rfl, rfl, rfl⟩
  · intro k hs2
    rw [hrun, step_struct_failure sc false (initState false false dest) ev k (by simp) hs hs2]
    exact ⟨rfl, rfl, rfl, rfl⟩

/-- Witness for C3 (amended): the concrete structural-error run submits the
original and then the reduced copy, and counts the event as imported. -/
theorem c3_structural_fallback_witness :
    script3 0 = SubmitResult.failure ErrKind.structuralPerm ∧
    (importEvents script3 false false [] [evC3]).trace
      = [evC3, { evC3 with organizer := none, attendees := [] }] ∧
    (importEvents script3 false false [] [evC3]).imported = 1 :=
  ⟨rfl, (c3_structural_fallback evC3 [] script3 rfl).1,
   ((c3_structural_fallback evC3 [] script3 rfl).2.1 rfl).1⟩

/-- Counterexample for C3 as stated: on a successful fallback retry the run
counts the event in the imported counter as well (imported = 1, not 0), while
also counting it as imported-without-attendees; the claim's "not as imported"
contradicts the code. -/
theorem c3_counterexample :
    (importEvents script3 false false [] [evC3]).importedWithoutAttendees = 1 ∧
    ¬ (importEvents script3 false false [] [evC3]).imported = 0 ∧
    (importEvents script3 false false [] [evC3]).imported = 1 := by decide

theorem getExisting_fold_mono (dest : List DestRecord) (acc : List String) (x : String)
    (h : x ∈ acc) :
    x ∈ dest.foldl (fun a rec =>
      addUid (addUid a (rec.iCalUID.getD "")) (rec.outlookUID.getD "")) acc := by
  induction dest generalizing acc with
  | nil => simpa using h
  | cons r rest ih => exact ih _ (addUid_mem_mono _ _ _ (addUid_mem_mono _ _ _ h))

theorem mem_fold_of_rec (dest : List DestRecord) (acc : List String) (rec : DestRecord)
    (hrec : rec ∈ dest) (x : String) (hne : x ≠ "")
    (hx : rec.iCalUID = some x ∨ rec.outlookUID = some x) :
    x ∈ dest.foldl (fun a r =>
      addUid (addUid a (r.iCalUID.getD "")) (r.outlookUID.getD "")) acc := by
  induction dest generalizing acc with
  | nil => cases hrec
  | cons r rest ih =>
    rcases List.mem_cons.mp hrec with rfl | hrec2
    · show x ∈ rest.foldl _ (addUid (addUid acc (rec.iCalUID.getD "")) (rec.outlookUID.getD ""))
      apply getExisting_fold_mono
      rcases hx with hx | hx
      · rw [show rec.iCalUID.getD "" = x from by rw [hx]; rfl]
        exact addUid_mem_mono _ _ _ (addUid_mem_self acc x hne)
      · rw [show rec.outlookUID.getD "" = x from by rw [hx]; rfl]
        exact addUid_mem_self _ x hne
    · exact ih _ hrec2

/-- C9 (amended): the duplicate set is pre-populated from the destination,
matching both each record's native external id and its provenance field, only
when duplicate skipping is on and dry-run is off (with dry-run set the set
starts empty, so nothing is skipped as a pre-existing duplicate); in a
non-dry-run with skipping on, an input event whose external id is already in
the pre-populated set is counted skipped-duplicate and never submitted. -/
theorem c9_preload (dest : List DestRecord) (skipDup dryRun : Bool)
    (sc : Nat → SubmitResult) (ev : GEvent) :
    (skipDup = true → dryRun = false →
      initialExisting skipDup dryRun dest = getExistingUids dest) ∧
    ((skipDup && !dryRun) = false → initialExisting skipDup dryRun dest = []) ∧
    (∀ rec ∈ dest, ∀ x, rec.iCalUID = some x → x ≠ "" → x ∈ getExistingUids dest) ∧
    (∀ rec ∈ dest, ∀ x, rec.outlookUID = some x → x ≠ "" → x ∈ getExistingUids dest) ∧
    (memD (getExistingUids dest) ev.iCalUID = true →
      (importEvents sc true false dest [ev]).skipped = 1 ∧
      (importEvents sc true false dest [ev]).imported = 0 ∧
      (importEvents sc true false dest [ev]).trace = [] ∧
      (importEvents sc true false dest [ev]).outcomes = [Outcome.skippedDup]) := by
  refine ⟨?_, ?_, ?_, ?_, ?_⟩
  · rintro rfl rfl
    simp [initialExisting]
  · intro h
    simp [initialExisting, h]
  · intro rec hrec x hx hne
    exact mem_fold_of_rec dest [] rec hrec x hne (Or.inl hx)
  · intro rec hrec x hx hne
    exact mem_fold_of_rec dest [] rec hrec x hne (Or.inr hx)
  · intro h
    have hst := step_skip sc false (initState true false dest) ev h
    rw [show importEvents sc true false dest [ev]
        = stepEvent sc true false (initState true false dest) ev from rfl, hst]
    exact ⟨rfl, rfl, rfl, rfl⟩

/-- Witness for C9 (amended): an event whose id the destination already holds
is counted skipped and never submitted. -/
theorem c9_preload_witness :
    memD (getExistingUids destW) evW.iCalUID = true ∧
    (importEvents (fun _ => SubmitResult.success) true false destW [evW]).skipped = 1 ∧
    (importEvents (fun _ => SubmitResult.success) true false destW [evW]).trace = [] :=
  ⟨by decide,
   ((c9_preload destW true false (fun _ => SubmitResult.success) evW).2.2.2.2 (by decide)).1,
   ((c9_preload destW true false (fun _ => SubmitResult.success) evW).2.2.2.2
     (by decide)).2.2.1⟩

/-- Counterexample for C9 as stated: with skipDuplicates and dryRun both set,
the duplicate set is not pre-populated (it stays empty although the
destination holds id "a"), and the duplicate input event is counted imported
rather than skipped-duplicate. -/
theorem c9_counterexample :
    initialExisting true true destC9 = [] ∧
    getExistingUids destC9 = ["a"] ∧
    (importEvents (fun _ => SubmitResult.success) true true destC9 [evC9]).skipped = 0 ∧
    (importEvents (fun _ => SubmitResult.success) true true destC9 [evC9]).imported = 1 ∧
    (importEvents (fun _ => SubmitResult.success) true true destC9 [evC9]).outcomes
      = [Outcome.dryImported] := by decide

theorem foldl_add_count (g : VEventRec → Nat) (records : List VEventRec) (n : Nat) :
    records.foldl (fun acc r => acc + g r) n = n + (records.map g).sum := by
  induction records generalizing n with
  | nil => simp
  | cons r rest ih =>
    rw [List.foldl_cons, ih, List.map_cons, List.sum_cons]
    omega

/-- C10 (amended): the attendees-imported counter is accumulated at
translation time, one per attendee included in a translated event; it is
independent of the destination state, the flags and the submission outcomes,
and equals the sum of the translated events' attendee counts. -/
theorem c10_attendee_counter (isValid : String → Bool) (records : List VEventRec)
    (tz : String) (inc : Bool) (dest1 dest2 : List DestRecord) (f1 d1 f2 d2 : Bool)
    (sc1 sc2 : Nat → SubmitResult) :
    (runPipeline isValid records tz inc dest1 f1 d1 sc1).2
      = (runPipeline isValid records tz inc dest2 f2 d2 sc2).2 ∧
    (runPipeline isValid records tz inc dest1 f1 d1 sc1).2
      = (records.map (fun r => attCountOf isValid r tz inc)).sum := by
  constructor
  · rfl
  · show records.foldl (fun acc r => acc + attCountOf isValid r tz inc) 0 = _
    rw [foldl_add_count (fun r => attCountOf isValid r tz inc) records 0]
    simp

/-- Counterexample for C10 as stated: in a run where the only event is skipped
as a duplicate and nothing is ever submitted (empty trace, no success), the
attendees-imported counter still ends at 1, because the source increments it
during translation (line 585), not on submission success. -/
theorem c10_counterexample :
    (runPipeline stubValid [recC10] "UTC" true destC10 true false
      (fun _ => SubmitResult.success)).2 = 1 ∧
    (runPipeline stubValid [recC10] "UTC" true destC10 true false
      (fun _ => SubmitResult.success)).1.trace = [] ∧
    (runPipeline stubValid [recC10] "UTC" true destC10 true false
      (fun _ => SubmitResult.success)).1.outcomes = [Outcome.skippedDup] := by decide

/-- Witness for C2: for the concrete identical pair, the whole run submits
exactly one payload with the shared id. -/
theorem c2_within_batch_duplicates_witness :
    evPair.iCalUID = "pair-uid" ∧
    tracesFor (importEvents (fun _ => SubmitResult.success) true false []
      ([] ++ evPair :: ([] ++ evPair :: []))) "pair-uid" = [evPair] :=
  ⟨rfl, (c2_within_batch_duplicates [] [] [] [] evPair evPair "pair-uid" rfl rfl
    (by decide) (by simp) (by simp [getExistingUids])).2.1⟩
